import Mathlib

/-!
Verification development for the data-downloader repository's download
orchestration engine. The repository snapshot contains only documentation
(README, docs, notebooks); the `data_downloader.downloader` module itself is
not present, so every definition below is a shallow embedding modelled from
the specification's description of that module (Resume Policy decision table,
HTTP Transfer Unit, Batch Driver, Concurrency Scheduler, status handling,
`status_ok`, and the `Netrc` credential store).
-/

namespace DataDownloader

/-- Modelled from the spec: a Job (spec section 3) is one requested file
transfer: source URL plus target path; immutable after creation. -/
structure Job where
  url : String
  target : String
deriving DecidableEq

/-- Modelled from the spec: error taxonomy (spec section 7): size-mismatch
after transfer, HTTP status failures, network errors, and cancellation. -/
inductive ErrKind where
  | sizeMismatch (expected got : Nat)
  | httpStatus (status : Nat)
  | network
  | cancelledJob
deriving DecidableEq

/-- Modelled from the spec: Outcome (spec section 3), the tagged terminal
result of a job: Skipped, Completed, Resumed, or Failed. -/
inductive Outcome where
  | skipped
  | completed (bytesWritten : Nat)
  | resumed (bytesAppended : Nat)
  | failed (err : ErrKind)
deriving DecidableEq

/-- Modelled from the spec: the action chosen by the Resume Policy
(spec section 4.2): fresh download, skip, resume at an offset, or
restart from zero. -/
inductive ResumeAction where
  | fresh
  | skip
  | resume (offset : Nat)
  | restart
deriving DecidableEq

/-- Modelled from the spec: Resume Policy decision table (spec section 4.2).
Inputs: local file size (`none` when no local file), server total size
(`none` when unknown), and the server's range-support flag. -/
def resumePolicy (localSize : Option Nat) (totalSize : Option Nat)
    (acceptRanges : Bool) : ResumeAction :=
  match localSize, totalSize with
  | none, _ => ResumeAction.fresh
  | some _, none => ResumeAction.fresh
  | some l, some t =>
    if l = t then ResumeAction.skip
    else if l < t then
      if acceptRanges then ResumeAction.resume l else ResumeAction.restart
    else ResumeAction.restart

/-- Modelled from the spec: the remote side of one job, as the Transfer Unit
sees it: the resource's bytes and whether the server honours range
requests. -/
structure Server where
  content : List Nat
  acceptRanges : Bool

/-- Modelled from the spec: the result a Transfer Unit hands back to the
Batch Driver: the Outcome, the final on-disk file content, and how many
body bytes the network transferred. -/
structure TransferResult where
  outcome : Outcome
  file : List Nat
  bytesTransferred : Nat
deriving DecidableEq

/-- Modelled from the spec: streaming a body (spec section 4.1 steps 4 and 5):
request the bytes from `off` on, receive at most `deliveredLen` of them (the
stream may terminate early), append them to the file opened with `initFile`
content, then verify the final size against the server-reported total; a
mismatch is a Failed outcome with a size-mismatch error. -/
def streamBody (srv : Server) (initFile : List Nat) (off : Nat)
    (deliveredLen : Nat) : TransferResult :=
  let body := (srv.content.drop off).take deliveredLen
  let file := initFile ++ body
  if file.length = srv.content.length then
    { outcome := if off = 0 then Outcome.completed body.length
                 else Outcome.resumed body.length,
      file := file, bytesTransferred := body.length }
  else
    { outcome := Outcome.failed (ErrKind.sizeMismatch srv.content.length file.length),
      file := file, bytesTransferred := body.length }

/-- Modelled from the spec: HTTP Transfer Unit (spec section 4.1): probe the
server, consult the Resume Policy on the local file state, then skip (no body
transfer), resume from the local size, or stream the whole body from zero. -/
def transferUnit (srv : Server) (localFile : Option (List Nat))
    (deliveredLen : Nat) : TransferResult :=
  match resumePolicy (localFile.map List.length) (some srv.content.length)
      srv.acceptRanges with
  | ResumeAction.skip =>
    { outcome := Outcome.skipped, file := localFile.getD [],
      bytesTransferred := 0 }
  | ResumeAction.resume off => streamBody srv (localFile.getD []) off deliveredLen
  | _ => streamBody srv [] 0 deliveredLen

/-- Modelled from the spec: one entry of a batch as the Batch Driver sees it:
the job, the remote resource, the pre-existing local file (if any), and how
many body bytes the network delivers on this invocation. -/
structure BatchJob where
  job : Job
  server : Server
  localFile : Option (List Nat)
  delivered : Nat

/-- Modelled from the spec: Batch Driver (spec section 4.5): run the Transfer
Unit over every job of the batch, pairing each Outcome with its originating
Job; failures are collected, never raised. -/
def runBatch (bs : List BatchJob) : List (Job × TransferResult) :=
  bs.map (fun b => (b.job, transferUnit b.server b.localFile b.delivered))

/-- Modelled from the spec: the local state after a fully-successful first
run: the target file holds exactly the server's content. -/
def afterSuccess (b : BatchJob) : BatchJob :=
  { b with localFile := some b.server.content }

/-- Modelled from the spec: a raw per-job transfer that may signal a local
error (for instance a connection failure) instead of returning a result. -/
def rawTransfer (b : BatchJob) (netErr : Bool) : Except ErrKind TransferResult :=
  if netErr then Except.error ErrKind.network
  else Except.ok (transferUnit b.server b.localFile b.delivered)

/-- Modelled from the spec: per-job error handling (spec section 7): the
driver catches every per-job error and converts it into a Failed outcome for
that job only; the local file is left untouched. -/
def processJob (b : BatchJob) (netErr : Bool) : Job × TransferResult :=
  match rawTransfer b netErr with
  | Except.error e =>
    (b.job, { outcome := Outcome.failed e, file := b.localFile.getD [],
              bytesTransferred := 0 })
  | Except.ok r => (b.job, r)

/-- Modelled from the spec: a batch run in an environment where some jobs hit
a local error (flag per job); the driver still visits every job. -/
def runBatchEnv (bs : List (BatchJob × Bool)) : List (Job × TransferResult) :=
  bs.map (fun p => processJob p.1 p.2)

/-- Modelled from the spec: Concurrency Scheduler state (spec section 4.4):
jobs not yet started, Transfer Units in flight, and finished jobs paired with
their Outcome. -/
structure SchedState where
  pending : List Job
  inflight : List Job
  done : List (Job × Outcome)

/-- Modelled from the spec: the Scheduler starts with every job pending. -/
def initState (jobs : List Job) : SchedState :=
  ⟨jobs, [], []⟩

/-- Modelled from the spec: one Scheduler transition (spec sections 4.4
and 5): start a pending job only while fewer than K Transfer Units are in
flight; finish an in-flight job, recording its Outcome; or cancel the whole
batch, in which case every unfinished job still gets an Outcome exactly
once. -/
inductive SchedStep (K : Nat) (result : Job → Outcome) :
    SchedState → SchedState → Prop where
  | start (j : Job) (p fl : List Job) (d : List (Job × Outcome))
      (hK : fl.length < K) :
      SchedStep K result ⟨j :: p, fl, d⟩ ⟨p, j :: fl, d⟩
  | finish (j : Job) (p fl₁ fl₂ : List Job) (d : List (Job × Outcome)) :
      SchedStep K result ⟨p, fl₁ ++ j :: fl₂, d⟩
        ⟨p, fl₁ ++ fl₂, (j, result j) :: d⟩
  | cancel (p fl : List Job) (d : List (Job × Outcome)) :
      SchedStep K result ⟨p, fl, d⟩
        ⟨[], [],
         ((p ++ fl).map (fun j => (j, Outcome.failed ErrKind.cancelledJob))) ++ d⟩

/-- Modelled from the spec: the states the Scheduler can reach from the
initial state of a job list. -/
inductive Reachable (K : Nat) (result : Job → Outcome) (jobs : List Job) :
    SchedState → Prop where
  | init : Reachable K result jobs (initState jobs)
  | step {s t : SchedState} : Reachable K result jobs s →
      SchedStep K result s t → Reachable K result jobs t

/-- Modelled from the spec: classification of an HTTP status by the Transfer
Unit (spec section 4.1 step 6): 200/206 are the success path, 216/416 mean
the file is already fully downloaded, 503 is retried, everything else
fails. -/
inductive StatusClass where
  | success
  | alreadyComplete
  | retryServer
  | failStatus
deriving DecidableEq

/-- Modelled from the spec: HTTP status classification table
(spec section 4.1 step 6). -/
def classifyStatus (s : Nat) : StatusClass :=
  if s = 200 ∨ s = 206 then StatusClass.success
  else if s = 216 ∨ s = 416 then StatusClass.alreadyComplete
  else if s = 503 then StatusClass.retryServer
  else StatusClass.failStatus

/-- Modelled from the spec: the result of probing and status handling:
proceed with the body transfer, detect an already-complete file with no body
transfer, or fail with the status recorded. -/
inductive ProbeResult where
  | proceed
  | alreadyDone
  | failedStatus (status : Nat)
deriving DecidableEq

/-- Modelled from the spec: the retry loop for 503 (spec section 4.1 step 6):
`statuses i` is the status of attempt `i`; a 503 is retried while budget
remains. Returns the final status and the number of attempts made. -/
def attemptLoop (statuses : Nat → Nat) : Nat → Nat → Nat × Nat
  | 0, i => (statuses i, i + 1)
  | b + 1, i =>
    if statuses i = 503 then attemptLoop statuses b (i + 1)
    else (statuses i, i + 1)

/-- Modelled from the spec: run the probe with a retry budget and classify
the final status; any status outside the success and already-complete sets
yields a failure recording that status. -/
def handleStatus (budget : Nat) (statuses : Nat → Nat) : ProbeResult × Nat :=
  let r := attemptLoop statuses budget 0
  match classifyStatus r.1 with
  | StatusClass.success => (ProbeResult.proceed, r.2)
  | StatusClass.alreadyComplete => (ProbeResult.alreadyDone, r.2)
  | _ => (ProbeResult.failedStatus r.1, r.2)

/-- Modelled from the spec: the link-check operation `status_ok`
(spec section 4.5): probe each URL and return one boolean per URL, aligned
to input order, true exactly when the URL answers 200. -/
def statusOkList (statusOf : String → Nat) (urls : List String) : List Bool :=
  urls.map (fun u => statusOf u == 200)

/-- Modelled from the spec and README: one record of the netrc credential
store: login, optional account, password. -/
structure NetrcRecord where
  login : String
  account : Option String
  password : String
deriving DecidableEq

/-- Modelled from the spec and README: the netrc state, an ordered list of
host-keyed records. -/
abbrev NetrcState := List (String × NetrcRecord)

/-- Modelled from the spec and README: look a host up in the netrc state. -/
def lookupHost : NetrcState → String → Option NetrcRecord
  | [], _ => none
  | (k, r) :: tl, h => if k = h then some r else lookupHost tl h

/-- Modelled from the spec and README: `Netrc.add(host, login, password,
account, overwrite)`: when the host already has a record, with
`overwrite=False` only a warning is emitted and nothing changes; with
`overwrite=True` that host's record is replaced; a new host is appended. -/
def netrcAdd (n : NetrcState) (host login password : String)
    (account : Option String) (overwrite : Bool) : NetrcState :=
  if (lookupHost n host).isSome then
    if overwrite then
      n.map (fun p => if p.1 = host then (host, ⟨login, account, password⟩) else p)
    else n
  else n ++ [(host, ⟨login, account, password⟩)]

/-- Sample job used by concrete witness instances. -/
def sampleJob : Job :=
  ⟨"https://example.org/a.tif", "a.tif"⟩

/-- Sample outcome assignment used by concrete witness instances. -/
def sampleResult : Job → Outcome :=
  fun _ => Outcome.skipped

/-- Sample batch entry used by concrete witness instances: a 3-byte resource
with range support, no local file yet, full delivery. -/
def sampleBatchJob : BatchJob :=
  { job := sampleJob, server := { content := [7, 8, 9], acceptRanges := true },
    localFile := none, delivered := 3 }

/-- Sample netrc state used by concrete witness instances, mirroring the
README walkthrough. -/
def demoNetrc : NetrcState :=
  [("urs.earthdata.nasa.gov", ⟨"username", none, "passwd"⟩),
   ("gpm1.gesdisc.eosdis.nasa.gov", ⟨"username", none, "passwd"⟩)]

theorem policy_resume_of_lt (l t : Nat) (h : l < t) :
    resumePolicy (some l) (some t) true = ResumeAction.resume l := by
  simp [resumePolicy, h, Nat.ne_of_lt h]

theorem policy_restart_of_lt (l t : Nat) (h : l < t) :
    resumePolicy (some l) (some t) false = ResumeAction.restart := by
  simp [resumePolicy, h, Nat.ne_of_lt h]

theorem transferUnit_skip (srv : Server) (lf : List Nat)
    (h : lf.length = srv.content.length) (d : Nat) :
    transferUnit srv (some lf) d =
      { outcome := Outcome.skipped, file := lf, bytesTransferred := 0 } := by
  simp [transferUnit, resumePolicy, h]

theorem streamBody_file (srv : Server) (initFile : List Nat) (off d : Nat) :
    (streamBody srv initFile off d).file =
      initFile ++ (srv.content.drop off).take d := by
  simp only [streamBody]
  split <;> rfl

theorem streamBody_mismatch (srv : Server) (initFile : List Nat) (off d : Nat)
    (h : (streamBody srv initFile off d).file.length ≠ srv.content.length) :
    (streamBody srv initFile off d).outcome =
      Outcome.failed (ErrKind.sizeMismatch srv.content.length
        (streamBody srv initFile off d).file.length) := by
  rw [streamBody_file] at h
  conv_rhs => rw [streamBody_file]
  simp only [streamBody]
  rw [if_neg h]

theorem transferUnit_fresh_eq (content : List Nat) (r : Bool) (d : Nat) :
    transferUnit ⟨content, r⟩ none d = streamBody ⟨content, r⟩ [] 0 d := rfl

theorem transferUnit_resume_eq (content lf : List Nat) (d : Nat)
    (h : lf.length < content.length) :
    transferUnit ⟨content, true⟩ (some lf) d =
      streamBody ⟨content, true⟩ lf lf.length d := by
  simp [transferUnit, policy_resume_of_lt _ _ h]

theorem transferUnit_restart_eq (content lf : List Nat) (d : Nat)
    (h : lf.length < content.length) :
    transferUnit ⟨content, false⟩ (some lf) d =
      streamBody ⟨content, false⟩ [] 0 d := by
  simp [transferUnit, policy_restart_of_lt _ _ h]

theorem streamBody_full_fresh (content : List Nat) (r : Bool) (d : Nat)
    (hd : content.length ≤ d) :
    streamBody ⟨content, r⟩ [] 0 d =
      { outcome := Outcome.completed content.length, file := content,
        bytesTransferred := content.length } := by
  simp [streamBody, List.take_of_length_le hd]

theorem streamBody_resume_full (content : List Nat) (N d : Nat)
    (hN : N ≤ content.length) (hd : content.length ≤ d) :
    streamBody ⟨content, true⟩ (content.take N) N d =
      { outcome := if N = 0 then Outcome.completed (content.length - N)
                   else Outcome.resumed (content.length - N),
        file := content, bytesTransferred := content.length - N } := by
  have hbody : (content.drop N).take d = content.drop N :=
    List.take_of_length_le (by simp [List.length_drop]; omega)
  simp [streamBody, hbody, List.take_append_drop, List.length_drop]

/-- Claim C1: the Resume Policy is a pure function of local size, server
total size and the range-support flag: equal sizes give Skipped with no body
transfer, a smaller local size with range support gives Resumed from the
local size, and a larger local size gives restart-from-zero. -/
theorem resume_policy_decision (l t : Nat) (r : Bool) (srv : Server)
    (lf : List Nat) (d : Nat) :
    (l = t → resumePolicy (some l) (some t) r = ResumeAction.skip) ∧
    (l < t → resumePolicy (some l) (some t) true = ResumeAction.resume l) ∧
    (t < l → resumePolicy (some l) (some t) r = ResumeAction.restart) ∧
    (lf.length = srv.content.length →
      (transferUnit srv (some lf) d).outcome = Outcome.skipped ∧
      (transferUnit srv (some lf) d).bytesTransferred = 0) := by
  refine ⟨?_, ?_, ?_, ?_⟩
  · intro h
    simp [resumePolicy, h]
  · intro h
    exact policy_resume_of_lt l t h
  · intro h
    simp only [resumePolicy]
    split_ifs <;> first | rfl | omega
  · intro h
    rw [transferUnit_skip srv lf h d]
    exact ⟨rfl, rfl⟩

/-- Closed instance of the C1 theorem at concrete sizes, discharging each
hypothesis. -/
theorem resume_policy_decision_witness :
    resumePolicy (some 5) (some 5) false = ResumeAction.skip ∧
    resumePolicy (some 2) (some 5) true = ResumeAction.resume 2 ∧
    resumePolicy (some 7) (some 5) false = ResumeAction.restart ∧
    (transferUnit ⟨[1, 2, 3], true⟩ (some [1, 2, 3]) 0).bytesTransferred = 0 :=
  ⟨(resume_policy_decision 5 5 false ⟨[], true⟩ [] 0).1 rfl,
   (resume_policy_decision 2 5 true ⟨[], true⟩ [] 0).2.1 (by decide),
   (resume_policy_decision 7 5 false ⟨[], true⟩ [] 0).2.2.1 (by decide),
   ((resume_policy_decision 0 0 true ⟨[1, 2, 3], true⟩ [1, 2, 3] 0).2.2.2
     rfl).2⟩

/-- Claim C2: re-invoking the download on a local file truncated to N bytes
of an M-byte resource (N strictly below M) yields a final file of exactly M
bytes equal byte-for-byte to a fresh full download: through a ranged resume
when the server supports ranges, and through a restart from zero, never an
(M+N)-byte concatenation, when it does not. -/
theorem resume_rebuilds_full_file (content : List Nat) (N d : Nat) (r : Bool)
    (hN : N < content.length) (hd : content.length ≤ d) :
    (transferUnit ⟨content, r⟩ (some (content.take N)) d).file = content ∧
    (transferUnit ⟨content, r⟩ none d).file = content ∧
    (transferUnit ⟨content, r⟩ (some (content.take N)) d).file.length
      = content.length ∧
    (0 < N → (transferUnit ⟨content, true⟩ (some (content.take N)) d).outcome
      = Outcome.resumed (content.length - N)) ∧
    (transferUnit ⟨content, false⟩ (some (content.take N)) d).outcome
      = Outcome.completed content.length ∧
    (0 < N →
      (transferUnit ⟨content, false⟩ (some (content.take N)) d).file.length
        ≠ content.length + N) := by
  have hlen : (content.take N).length = N := by
    rw [List.length_take]
    omega
  have hlt : (content.take N).length < content.length := by omega
  have hres : transferUnit ⟨content, true⟩ (some (content.take N)) d
      = { outcome := if N = 0 then Outcome.completed (content.length - N)
                     else Outcome.resumed (content.length - N),
          file := content, bytesTransferred := content.length - N } := by
    rw [transferUnit_resume_eq content (content.take N) d hlt, hlen]
    exact streamBody_resume_full content N d (Nat.le_of_lt hN) hd
  have hrest : transferUnit ⟨content, false⟩ (some (content.take N)) d
      = { outcome := Outcome.completed content.length, file := content,
          bytesTransferred := content.length } := by
    rw [transferUnit_restart_eq content (content.take N) d hlt]
    exact streamBody_full_fresh content false d hd
  have hfile : (transferUnit ⟨content, r⟩ (some (content.take N)) d).file
      = content := by
    cases r
    · rw [hrest]
    · rw [hres]
  refine ⟨hfile, ?_, by rw [hfile], ?_, by rw [hrest], ?_⟩
  · rw [transferUnit_fresh_eq, streamBody_full_fresh content r d hd]
  · intro hpos
    rw [hres]
    simp [Nat.pos_iff_ne_zero.mp hpos]
  · intro hpos
    simp [hrest]
    omega

/-- Closed instance of the C2 theorem: a 3-byte resource with a 1-byte local
truncation resumes to the full content. -/
theorem resume_rebuilds_full_file_witness :
    (transferUnit ⟨[7, 8, 9], true⟩ (some ([7, 8, 9].take 1)) 3).file
      = [7, 8, 9] ∧
    (transferUnit ⟨[7, 8, 9], true⟩ (some ([7, 8, 9].take 1)) 3).outcome
      = Outcome.resumed 2 ∧
    (transferUnit ⟨[7, 8, 9], false⟩ (some ([7, 8, 9].take 1)) 3).outcome
      = Outcome.completed 3 :=
  ⟨(resume_rebuilds_full_file [7, 8, 9] 1 3 true (by decide) (by decide)).1,
   (resume_rebuilds_full_file [7, 8, 9] 1 3 true (by decide)
     (by decide)).2.2.2.1 (by decide),
   (resume_rebuilds_full_file [7, 8, 9] 1 3 false (by decide)
     (by decide)).2.2.2.2.1⟩

theorem afterSuccess_skips (b : BatchJob) :
    transferUnit (afterSuccess b).server (afterSuccess b).localFile
        (afterSuccess b).delivered =
      { outcome := Outcome.skipped, file := b.server.content,
        bytesTransferred := 0 } :=
  transferUnit_skip b.server b.server.content rfl b.delivered

/-- Claim C3: batch download is idempotent: re-invoking the same batch after
a fully-successful first run (every local file holds the full server
content) yields a Skipped outcome for every job and transfers zero body
bytes. -/
theorem batch_idempotent (bs : List BatchJob) :
    (∀ p ∈ runBatch (bs.map afterSuccess),
      p.2.outcome = Outcome.skipped ∧ p.2.bytesTransferred = 0) ∧
    ((runBatch (bs.map afterSuccess)).map
      (fun p => p.2.bytesTransferred)).sum = 0 := by
  constructor
  · intro p hp
    simp only [runBatch, List.map_map, List.mem_map, Function.comp] at hp
    obtain ⟨b, hb, rfl⟩ := hp
    rw [afterSuccess_skips]
    exact ⟨rfl, rfl⟩
  · apply List.sum_eq_zero
    intro x hx
    simp only [runBatch, List.map_map, List.mem_map, Function.comp] at hx
    obtain ⟨b, hb, rfl⟩ := hx
    rw [afterSuccess_skips]

/-- Closed instance of the C3 theorem on a one-job batch. -/
theorem batch_idempotent_witness :
    ((runBatch ([sampleBatchJob].map afterSuccess)).map
      (fun p => p.2.bytesTransferred)).sum = 0 ∧
    (sampleBatchJob.job,
        transferUnit (afterSuccess sampleBatchJob).server
          (afterSuccess sampleBatchJob).localFile
          (afterSuccess sampleBatchJob).delivered).2.outcome
      = Outcome.skipped :=
  ⟨(batch_idempotent [sampleBatchJob]).2,
   ((batch_idempotent [sampleBatchJob]).1 _ (by simp [runBatch, afterSuccess])).1⟩

/-- Claim C4: when the server reported total size M and the streamed body
terminates early at K bytes below M, the Outcome is Failed with a
size-mismatch error, never a success, and the on-disk file is left at
exactly size K. -/
theorem size_mismatch_failed (srv : Server) (lf : Option (List Nat)) (d : Nat)
    (content : List Nat) (K : Nat) :
    ((transferUnit srv lf d).file.length < srv.content.length →
      (transferUnit srv lf d).outcome =
        Outcome.failed (ErrKind.sizeMismatch srv.content.length
          (transferUnit srv lf d).file.length)) ∧
    (K < content.length →
      (transferUnit ⟨content, false⟩ none K).outcome =
        Outcome.failed (ErrKind.sizeMismatch content.length K) ∧
      (transferUnit ⟨content, false⟩ none K).file.length = K) := by
  constructor
  · unfold transferUnit
    split
    · intro hlt
      rename_i heq
      have hsome : lf.map List.length = some srv.content.length := by
        cases hmap : lf.map List.length with
        | none => rw [hmap] at heq; simp [resumePolicy] at heq
        | some l =>
          rw [hmap] at heq
          simp only [resumePolicy] at heq
          split_ifs at heq with h1 h2 <;> simp_all
      cases lf with
      | none => exact Option.noConfusion hsome
      | some l =>
        injection hsome with hsome
        have hlt2 : l.length < srv.content.length := hlt
        omega
    · intro hlt
      exact streamBody_mismatch _ _ _ _ (Nat.ne_of_lt hlt)
    · intro hlt
      exact streamBody_mismatch _ _ _ _ (Nat.ne_of_lt hlt)
  · intro hK
    have hfile : (transferUnit ⟨content, false⟩ none K).file
        = content.take K := by
      rw [transferUnit_fresh_eq, streamBody_file]
      simp
    have hlen : (content.take K).length = K := by
      rw [List.length_take]
      omega
    have hne : (transferUnit ⟨content, false⟩ none K).file.length
        ≠ content.length := by
      rw [hfile, hlen]
      omega
    refine ⟨?_, by rw [hfile, hlen]⟩
    rw [transferUnit_fresh_eq] at hne ⊢
    rw [streamBody_mismatch _ _ _ _ hne, streamBody_file]
    simp only [List.nil_append, List.drop_zero]
    rw [show (content.take K).length = K from hlen]

/-- Closed instance of the C4 theorem: a 3-byte resource delivered for only
1 byte fails with a size mismatch and leaves a 1-byte file. -/
theorem size_mismatch_failed_witness :
    (transferUnit ⟨[1, 2, 3], false⟩ none 1).outcome =
      Outcome.failed (ErrKind.sizeMismatch 3 1) ∧
    (transferUnit ⟨[1, 2, 3], false⟩ none 1).file.length = 1 :=
  (size_mismatch_failed ⟨[1, 2, 3], false⟩ none 1 [1, 2, 3] 1).2 (by decide)

theorem reachable_multiset (K : Nat) (res : Job → Outcome) (jobs : List Job)
    {s : SchedState} (h : Reachable K res jobs s) :
    (s.pending : Multiset Job) + (s.inflight : Multiset Job) +
      ((s.done.map Prod.fst : List Job) : Multiset Job) = (jobs : Multiset Job) := by
  induction h with
  | init => simp [initState]
  | step hr hstep ih =>
    cases hstep with
    | start j p fl d hK =>
      dsimp only at ih ⊢
      rw [← ih]
      simp only [← Multiset.cons_coe, ← Multiset.singleton_add]
      abel
    | finish j p fl₁ fl₂ d =>
      dsimp only [List.map] at ih ⊢
      rw [← ih]
      simp only [← Multiset.coe_add, ← Multiset.cons_coe, ← Multiset.singleton_add]
      abel
    | cancel p fl d =>
      dsimp only at ih ⊢
      rw [← ih]
      have hmap : (((p ++ fl).map
            (fun j => (j, Outcome.failed ErrKind.cancelledJob))) ++ d).map
              Prod.fst
          = (p ++ fl) ++ d.map Prod.fst := by
        simp [Function.comp_def]
      rw [hmap]
      simp only [← Multiset.coe_add, Multiset.coe_nil]
      abel

/-- Claim C5: batch completeness: for every list of N jobs, including
duplicates and unreachable URLs, the batch returns exactly N outcomes, each
keyed to its originating job; and in every completed (including cancelled)
Scheduler state each job has received an Outcome exactly once. -/
theorem batch_outcome_per_job (bs : List BatchJob) (K : Nat)
    (res : Job → Outcome) (jobs : List Job) (s : SchedState) :
    (runBatch bs).length = bs.length ∧
    (runBatch bs).map Prod.fst = bs.map BatchJob.job ∧
    (Reachable K res jobs s → s.pending = [] → s.inflight = [] →
      ((s.done.map Prod.fst : List Job) : Multiset Job) = (jobs : Multiset Job)) := by
  refine ⟨by simp [runBatch], by simp [runBatch], ?_⟩
  intro h hp hf
  have hm := reachable_multiset K res jobs h
  rw [hp, hf] at hm
  simpa using hm

/-- Closed instance of the C5 theorem: a cancelled one-job batch still
reports that job exactly once. -/
theorem batch_outcome_per_job_witness :
    (((⟨[], [], [(sampleJob, Outcome.failed ErrKind.cancelledJob)]⟩ :
        SchedState).done.map Prod.fst : List Job) : Multiset Job)
      = (([sampleJob] : List Job) : Multiset Job) :=
  (batch_outcome_per_job [] 1 sampleResult [sampleJob]
      ⟨[], [], [(sampleJob, Outcome.failed ErrKind.cancelledJob)]⟩).2.2
    (Reachable.step Reachable.init (SchedStep.cancel [sampleJob] [] []))
    rfl rfl

/-- Claim C6: concurrency bound invariant: for every job list and limit K,
every reachable state of the Concurrency Scheduler has at most K Transfer
Units in flight. -/
theorem concurrency_bound (K : Nat) (res : Job → Outcome) (jobs : List Job)
    (s : SchedState) (h : Reachable K res jobs s) :
    s.inflight.length ≤ K := by
  induction h with
  | init => simp [initState]
  | step hr hstep ih =>
    cases hstep with
    | start j p fl d hK =>
      simpa using hK
    | finish j p fl₁ fl₂ d =>
      dsimp only at ih ⊢
      simp only [List.length_append, List.length_cons] at ih ⊢
      omega
    | cancel p fl d =>
      simp

/-- Closed instance of the C6 theorem: the initial state of 50 jobs under
limit 5 has at most 5 Transfer Units in flight. -/
theorem concurrency_bound_witness :
    (initState (List.replicate 50 sampleJob)).inflight.length ≤ 5 :=
  concurrency_bound 5 sampleResult (List.replicate 50 sampleJob)
    (initState (List.replicate 50 sampleJob)) Reachable.init

theorem processJob_fst (b : BatchJob) (e : Bool) :
    (processJob b e).1 = b.job := by
  cases e <;> rfl

/-- Claim C7: failure isolation: a per-job error is caught and converted
into a Failed outcome for that job only, sibling jobs' results are exactly
what they would be on their own, and the batch always runs to completion
with one outcome per job. -/
theorem failure_isolation (a b : List (BatchJob × Bool)) (bad : BatchJob) :
    runBatchEnv (a ++ (bad, true) :: b) =
      runBatchEnv a ++
        (bad.job, { outcome := Outcome.failed ErrKind.network,
                    file := bad.localFile.getD [],
                    bytesTransferred := 0 }) :: runBatchEnv b ∧
    (runBatchEnv (a ++ (bad, true) :: b)).length = a.length + 1 + b.length ∧
    (runBatchEnv (a ++ (bad, true) :: b)).map Prod.fst =
      (a ++ (bad, true) :: b).map (fun p => p.1.job) := by
  refine ⟨?_, ?_, ?_⟩
  · simp [runBatchEnv, processJob, rawTransfer]
  · simp only [runBatchEnv, List.length_map, List.length_append,
      List.length_cons]
    ring
  · simp only [runBatchEnv, List.map_map]
    congr 1
    funext p
    simp [processJob_fst]

theorem attemptLoop_all (f : Nat → Nat) (h : ∀ i, f i = 503) :
    ∀ b i, attemptLoop f b i = (503, i + b + 1) := by
  intro b
  induction b with
  | zero =>
    intro i
    simp [attemptLoop, h i]
  | succ n ihn =>
    intro i
    have hstep : attemptLoop f (n + 1) i
        = if f i = 503 then attemptLoop f n (i + 1) else (f i, i + 1) := rfl
    rw [hstep, if_pos (h i), ihn (i + 1)]
    have harith : i + 1 + n + 1 = i + (n + 1) + 1 := by omega
    rw [harith]

theorem attemptLoop_first (f : Nat → Nat) (b : Nat) (h : f 0 ≠ 503) :
    attemptLoop f b 0 = (f 0, 1) := by
  cases b <;> simp [attemptLoop, h]

/-- Claim C8: HTTP status classification: 200/206 are the success-path
statuses; 216/416 on the probe detect an already-fully-downloaded file with
no body transfer; every other status yields Failed with the status recorded,
except 503 which is retried up to the retry budget before failing. -/
theorem status_classification (budget : Nat) (statuses : Nat → Nat)
    (s : Nat) :
    (classifyStatus 200 = StatusClass.success ∧
     classifyStatus 206 = StatusClass.success) ∧
    (classifyStatus 216 = StatusClass.alreadyComplete ∧
     classifyStatus 416 = StatusClass.alreadyComplete) ∧
    (statuses 0 = s → s ≠ 200 → s ≠ 206 → s ≠ 216 → s ≠ 416 → s ≠ 503 →
      handleStatus budget statuses = (ProbeResult.failedStatus s, 1)) ∧
    ((∀ i, statuses i = 503) →
      handleStatus budget statuses = (ProbeResult.failedStatus 503, budget + 1)) := by
  refine ⟨⟨rfl, rfl⟩, ⟨rfl, rfl⟩, ?_, ?_⟩
  · intro h0 h1 h2 h3 h4 h5
    have hl : attemptLoop statuses budget 0 = (s, 1) := by
      rw [← h0]
      exact attemptLoop_first statuses budget (h0 ▸ h5)
    simp [handleStatus, hl, classifyStatus, h1, h2, h3, h4, h5]
  · intro hall
    have hl := attemptLoop_all statuses hall budget 0
    simp [handleStatus, hl, classifyStatus]

/-- Closed instance of the C8 theorem: a 404 fails on the first attempt; an
everlasting 503 with budget 2 fails after 3 attempts. -/
theorem status_classification_witness :
    handleStatus 2 (fun _ => 404) = (ProbeResult.failedStatus 404, 1) ∧
    handleStatus 2 (fun _ => 503) = (ProbeResult.failedStatus 503, 3) :=
  ⟨(status_classification 2 (fun _ => 404) 404).2.2.1 rfl (by decide)
      (by decide) (by decide) (by decide) (by decide),
   (status_classification 2 (fun _ => 503) 0).2.2.2 (fun _ => rfl)⟩

/-- Claim C9: link-check ordering: `status_ok` returns one boolean per URL,
aligned to input order, true exactly where the URL answers 200; in
particular five URLs ordered reachable, unreachable, reachable, unreachable,
reachable give `[true, false, true, false, true]`. -/
theorem status_ok_alignment (f : String → Nat) (urls : List String)
    (i : Nat) :
    (statusOkList f urls).length = urls.length ∧
    (i < urls.length →
      ((statusOkList f urls).getD i false = true ↔
        f (urls.getD i "") = 200)) ∧
    statusOkList (fun u => if u = "u2" ∨ u = "u4" then 404 else 200)
        ["u1", "u2", "u3", "u4", "u5"]
      = [true, false, true, false, true] := by
  refine ⟨by simp [statusOkList], ?_, by decide⟩
  intro h
  have hm : i < (statusOkList f urls).length := by
    simpa [statusOkList] using h
  rw [List.getD_eq_getElem _ false hm, List.getD_eq_getElem _ "" h]
  simp [statusOkList]

/-- Closed instance of the C9 theorem at position 1 of the five-URL
scenario. -/
theorem status_ok_alignment_witness :
    (statusOkList (fun u => if u = "u2" ∨ u = "u4" then 404 else 200)
        ["u1", "u2", "u3", "u4", "u5"]).getD 1 false = true ↔
      (fun u : String => if u = "u2" ∨ u = "u4" then 404 else 200)
        (["u1", "u2", "u3", "u4", "u5"].getD 1 "") = 200 :=
  (status_ok_alignment (fun u => if u = "u2" ∨ u = "u4" then 404 else 200)
    ["u1", "u2", "u3", "u4", "u5"] 1).2.1 (by decide)

theorem lookupHost_add_overwrite (n : NetrcState) (host l pw : String)
    (a : Option String) (h : (lookupHost n host).isSome) :
    lookupHost (n.map
        (fun p => if p.1 = host then (host, ⟨l, a, pw⟩) else p)) host
      = some ⟨l, a, pw⟩ := by
  induction n with
  | nil => simp [lookupHost] at h
  | cons hd tl ih =>
    obtain ⟨k, r⟩ := hd
    show lookupHost
        ((if k = host then (host, (⟨l, a, pw⟩ : NetrcRecord)) else (k, r)) ::
          tl.map (fun p => if p.1 = host then (host, ⟨l, a, pw⟩) else p)) host
      = some ⟨l, a, pw⟩
    by_cases hk : k = host
    · rw [if_pos hk]
      simp [lookupHost]
    · rw [if_neg hk]
      have htl : (lookupHost tl host).isSome := by
        simpa [lookupHost, hk] using h
      simp [lookupHost, hk, ih htl]

theorem lookupHost_add_frame (n : NetrcState) (host l pw h2 : String)
    (a : Option String) (hne : h2 ≠ host) :
    lookupHost (n.map
        (fun p => if p.1 = host then (host, ⟨l, a, pw⟩) else p)) h2
      = lookupHost n h2 := by
  induction n with
  | nil => rfl
  | cons hd tl ih =>
    obtain ⟨k, r⟩ := hd
    show lookupHost
        ((if k = host then (host, (⟨l, a, pw⟩ : NetrcRecord)) else (k, r)) ::
          tl.map (fun p => if p.1 = host then (host, ⟨l, a, pw⟩) else p)) h2
      = lookupHost ((k, r) :: tl) h2
    by_cases hk : k = host
    · rw [if_pos hk]
      simp [lookupHost, Ne.symm hne, hk, ih]
    · rw [if_neg hk]
      by_cases hk2 : k = h2
      · simp [lookupHost, hk2]
      · simp [lookupHost, hk2, ih]

/-- Claim C10: Netrc.add frame property: when the host already has a record,
adding with overwrite=false changes nothing, while adding with
overwrite=true replaces exactly that host's record and leaves every other
host's record unchanged. -/
theorem netrc_add_frame (n : NetrcState) (host l pw h2 : String)
    (a : Option String) (hmem : (lookupHost n host).isSome) :
    netrcAdd n host l pw a false = n ∧
    lookupHost (netrcAdd n host l pw a true) host = some ⟨l, a, pw⟩ ∧
    (h2 ≠ host →
      lookupHost (netrcAdd n host l pw a true) h2 = lookupHost n h2) := by
  refine ⟨?_, ?_, ?_⟩
  · simp [netrcAdd, hmem]
  · simp only [netrcAdd, hmem, if_pos, if_true]
    exact lookupHost_add_overwrite n host l pw a hmem
  · intro hne
    simp only [netrcAdd, hmem, if_pos, if_true]
    exact lookupHost_add_frame n host l pw h2 a hne

/-- Closed instance of the C10 theorem on the README's two-host netrc
state. -/
theorem netrc_add_frame_witness :
    netrcAdd demoNetrc "gpm1.gesdisc.eosdis.nasa.gov" "username" "new_passwd"
        none false = demoNetrc ∧
    lookupHost (netrcAdd demoNetrc "gpm1.gesdisc.eosdis.nasa.gov" "username"
        "new_passwd" none true) "gpm1.gesdisc.eosdis.nasa.gov"
      = some ⟨"username", none, "new_passwd"⟩ ∧
    lookupHost (netrcAdd demoNetrc "gpm1.gesdisc.eosdis.nasa.gov" "username"
        "new_passwd" none true) "urs.earthdata.nasa.gov"
      = lookupHost demoNetrc "urs.earthdata.nasa.gov" := by
  have h := netrc_add_frame demoNetrc "gpm1.gesdisc.eosdis.nasa.gov"
    "username" "new_passwd" "urs.earthdata.nasa.gov" none (by decide)
  exact ⟨h.1, h.2.1, h.2.2 (by decide)⟩

end DataDownloader
